import Mathlib

/-!
Verification of the ticker-data retrieval-and-normalization core of the
Market-tracker repository (`src/market_tracker_dashboard.py`), as a shallow
embedding in Lean 4.

The embedded functions are `update_ticker_data` (the fetch/clean/derive loop
with its retry policy) and `fetch_all_latest` (the batch fan-out that keeps
only non-empty per-ticker results).  The external data source (`yf.download`)
is modelled as a function from the attempt number to either a transport or
parsing fault (`Except.error`) or a raw tabular response (`Except.ok`), a list
of rows whose cells may be numeric, non-coercible text, or missing.  Side
effects (the warning log events and the `time.sleep` calls) are reified as an
event trace returned alongside the result, in the order they occur.
-/

/-- A raw cell of the downloaded table: a numeric value, a non-coercible
value (for example the string "N/A", which `pd.to_numeric(errors='coerce')`
turns into NaN), or an already-missing value (NaN/null). -/
inductive RawCell where
  | num (q : ℚ)
  | nonNum
  | missing
deriving DecidableEq

/-- One raw row of the downloaded table, restricted to the required columns
Date, Open, High, Low, Close selected on line 22 of the source. -/
structure RawRow where
  date : ℤ
  open_ : RawCell
  high : RawCell
  low : RawCell
  close : RawCell
deriving DecidableEq

/-- A row after `pd.to_numeric` coercion and `dropna`: all four price fields
are numeric. -/
structure CleanRow where
  date : ℤ
  open_ : ℚ
  high : ℚ
  low : ℚ
  close : ℚ
deriving DecidableEq

/-- The value of a pandas float expression: finite, +inf, -inf, or NaN.
Only division can introduce the non-finite values here; the finite values are
modelled exactly as rationals. -/
inductive PdFloat where
  | fin (q : ℚ)
  | inf
  | negInf
  | nan
deriving DecidableEq

/-- Pandas elementwise division `a / b`: `x/0` is `+inf` for positive `x`,
`-inf` for negative `x`, and NaN for `0/0`. -/
def pdDiv (a b : ℚ) : PdFloat :=
  if b = 0 then
    if 0 < a then PdFloat.inf
    else if a < 0 then PdFloat.negInf
    else PdFloat.nan
  else PdFloat.fin (a / b)

/-- `.replace([inf, -inf], 0)` on a pandas value. -/
def pdReplaceInf : PdFloat → PdFloat
  | PdFloat.inf => PdFloat.fin 0
  | PdFloat.negInf => PdFloat.fin 0
  | x => x

/-- `.fillna(0)` on a pandas value. -/
def pdFillna : PdFloat → PdFloat
  | PdFloat.nan => PdFloat.fin 0
  | x => x

/-- Multiplication of a pandas value by a finite scalar (the `* 100` on
line 36 of the source). -/
def pdMul (x : PdFloat) (c : ℚ) : PdFloat :=
  match x with
  | PdFloat.fin q => PdFloat.fin (q * c)
  | PdFloat.inf => if 0 < c then PdFloat.inf else if c < 0 then PdFloat.negInf else PdFloat.nan
  | PdFloat.negInf => if 0 < c then PdFloat.negInf else if c < 0 then PdFloat.inf else PdFloat.nan
  | PdFloat.nan => PdFloat.nan

/-- Whether a pandas value is finite (neither infinite nor NaN). -/
def PdFloat.isFin : PdFloat → Bool
  | PdFloat.fin _ => true
  | _ => false

/-- `pd.to_numeric(errors='coerce')` on one cell: numeric cells keep their
value, non-coercible and missing cells become missing (`none`). -/
def toNumeric : RawCell → Option ℚ
  | RawCell.num q => some q
  | RawCell.nonNum => none
  | RawCell.missing => none

/-- Coerce one raw row; `none` when any price field is missing after
coercion.  This is the row-level composition of lines 25-27 (`to_numeric`)
and line 30 (`dropna`) of the source. -/
def cleanRow (r : RawRow) : Option CleanRow :=
  match toNumeric r.open_, toNumeric r.high, toNumeric r.low, toNumeric r.close with
  | some o, some h, some l, some c => some ⟨r.date, o, h, l, c⟩
  | _, _, _, _ => none

/-- `data.dropna(subset=['Open','High','Low','Close'])` after coercion:
keep exactly the rows whose four price fields are numeric. -/
def dropna (rows : List RawRow) : List CleanRow :=
  rows.filterMap cleanRow

/-- An output row: the retained columns plus the three derived metric
columns added on lines 35-37 of the source. -/
structure Row where
  date : ℤ
  open_ : ℚ
  high : ℚ
  low : ℚ
  close : ℚ
  upward_Move : ℚ
  upward_Move_pct : PdFloat
  daily_Range : ℚ
deriving DecidableEq

/-- Lines 35-37 of the source:
`Upward_Move = High - Low`,
`Upward_Move_% = (Upward_Move / Low).replace([inf,-inf],0).fillna(0) * 100`,
`Daily_Range = Close - Open`. -/
def addMetrics (r : CleanRow) : Row :=
  ⟨r.date, r.open_, r.high, r.low, r.close,
    r.high - r.low,
    pdMul (pdFillna (pdReplaceInf (pdDiv (r.high - r.low) r.low))) 100,
    r.close - r.open_⟩

/-- Observable side effects of `update_ticker_data`, in order: a data-source
call (line 15), the per-attempt warning of line 45, the `time.sleep(delay)`
of line 46, and the exhaustion warning of line 48. -/
inductive Event where
  | call
  | warnAttempt (i : ℕ)
  | sleep (d : ℚ)
  | warnExhausted
deriving DecidableEq

/-- The body of one `try` block after a successful download (lines 16-42):
`none` means the attempt failed (empty response, or zero rows after
cleaning) and the loop continues; `some rows` is the value returned. -/
def attemptBody (resp : List RawRow) (latest_only : Bool) : Option (List Row) :=
  if resp.isEmpty then none
  else
    let cleaned := dropna resp
    if cleaned.isEmpty then none
    else
      let rows := cleaned.map addMetrics
      some (if latest_only then
              match rows.getLast? with
              | some r => [r]
              | none => []
            else rows)

/-- The `for attempt in range(retries)` loop of lines 12-46.  `n` is the
number of remaining attempts, `i` the current attempt index.  A transport or
parsing fault (`Except.error`) is caught by the `except` clause, which logs
the per-attempt warning and sleeps for `delay` before the loop continues; a
failed attempt inside the `try` block (`attemptBody` = `none`) hits a bare
`continue` with no warning and no sleep. -/
def runLoop (source : ℕ → Except String (List RawRow)) (latest_only : Bool)
    (delay : ℚ) : ℕ → ℕ → List Event × Option (List Row)
  | 0, _ => ([], none)
  | n + 1, i =>
    match source i with
    | Except.error _ =>
      let r := runLoop source latest_only delay n (i + 1)
      (Event.call :: Event.warnAttempt i :: Event.sleep delay :: r.1, r.2)
    | Except.ok resp =>
      match attemptBody resp latest_only with
      | none =>
        let r := runLoop source latest_only delay n (i + 1)
        (Event.call :: r.1, r.2)
      | some rows => ([Event.call], some rows)

/-- `update_ticker_data(ticker, latest_only, retries, delay, period)`
(lines 11-49).  The ticker and period only parametrize the data source, so
they are absorbed into `source`; `retries` is an arbitrary integer, looped
over as Python's `range(retries)` (empty for `retries ≤ 0`).  The result is
`Except` so that an uncaught fault could in principle propagate to the
caller as `Except.error`; the returned pair is the event trace and the
resulting data frame (a list of rows, `[]` for the empty frame of line 49,
preceded by the exhaustion warning of line 48). -/
def update_ticker_data (source : ℕ → Except String (List RawRow))
    (latest_only : Bool) (retries : ℤ) (delay : ℚ) :
    Except String (List Event × List Row) :=
  let r := runLoop source latest_only delay retries.toNat 0
  match r.2 with
  | some rows => Except.ok (r.1, rows)
  | none => Except.ok (r.1 ++ [Event.warnExhausted], [])

/-- Number of `sleep` events in a trace. -/
def sleepCount (tr : List Event) : ℕ :=
  tr.countP fun e => match e with | Event.sleep _ => true | _ => false

/-- Number of data-source calls in a trace. -/
def callCount (tr : List Event) : ℕ :=
  tr.countP fun e => match e with | Event.call => true | _ => false

/-- Whether the data source faults (raises) at attempt `i`. -/
def isFaultAt (source : ℕ → Except String (List RawRow)) (i : ℕ) : Bool :=
  match source i with
  | Except.error _ => true
  | Except.ok _ => false

/-- The rows of the data frame a caller of `update_ticker_data` observes
(`df = future.result()` on line 62; never a fault, see C5). -/
def fetchRows (source : ℕ → Except String (List RawRow)) (latest_only : Bool)
    (retries : ℤ) (delay : ℚ) : List Row :=
  match update_ticker_data source latest_only retries delay with
  | Except.ok (_, rows) => rows
  | Except.error _ => []

/-- The `all_data` mapping built by `fetch_all_latest` (lines 52-64).
`sources` gives each ticker its data-source behaviour.  Each ticker is
fetched with `latest_only=True` and the default `retries=3, delay=2`;
tickers whose frame came back empty are skipped (line 63).  The per-future
results are collected in input-ticker order, as the `futures` dict iterates
in insertion order. -/
def all_data (sources : String → ℕ → Except String (List RawRow))
    (top_tickers : List String) : List (String × List Row) :=
  top_tickers.filterMap fun t =>
    if (fetchRows (sources t) true 3 2).isEmpty then none
    else some (t, fetchRows (sources t) true 3 2)

/-- The final value of `fetch_all_latest` (lines 66-70): if `all_data` is
non-empty, the per-ticker frames are concatenated with a Ticker key column
(line 67); otherwise the empty frame is returned (line 70). -/
def fetch_all_latest (sources : String → ℕ → Except String (List RawRow))
    (top_tickers : List String) : List (String × Row) :=
  if (all_data sources top_tickers).isEmpty then []
  else (all_data sources top_tickers).flatMap fun p => p.2.map fun r => (p.1, r)

/-! ### Structural lemmas about the embedding -/

/-- Fields of a derived row, in terms of the clean row it was computed
from. -/
theorem addMetrics_fields (m : CleanRow) :
    (addMetrics m).high = m.high ∧ (addMetrics m).low = m.low ∧
    (addMetrics m).open_ = m.open_ ∧ (addMetrics m).close = m.close ∧
    (addMetrics m).date = m.date ∧
    (addMetrics m).upward_Move = m.high - m.low ∧
    (addMetrics m).upward_Move_pct =
      pdMul (pdFillna (pdReplaceInf (pdDiv (m.high - m.low) m.low))) 100 ∧
    (addMetrics m).daily_Range = m.close - m.open_ :=
  ⟨rfl, rfl, rfl, rfl, rfl, rfl, rfl, rfl⟩

/-- After `replace([inf,-inf],0).fillna(0)` every pandas value is finite. -/
theorem pdFillna_pdReplaceInf_fin (x : PdFloat) :
    ∃ q, pdFillna (pdReplaceInf x) = PdFloat.fin q := by
  cases x <;> exact ⟨_, rfl⟩

/-- Dividing by zero always yields a non-finite value, so the
replace/fillna chain maps it to zero. -/
theorem pdPct_zero_of_low_zero (a : ℚ) :
    pdMul (pdFillna (pdReplaceInf (pdDiv a 0))) 100 = PdFloat.fin 0 := by
  unfold pdDiv
  rcases lt_trichotomy 0 a with h | h | h
  · simp [h, pdReplaceInf, pdFillna, pdMul]
  · simp [← h, pdReplaceInf, pdFillna, pdMul]
  · simp [h, not_lt.mpr h.le, pdReplaceInf, pdFillna, pdMul]

/-- A successful `try` body returns a non-empty frame, and characterizes it:
the cleaned data is non-empty, and the result is its last derived row in
latest-only mode, or all derived rows otherwise. -/
theorem attemptBody_eq_some {resp : List RawRow} {latest : Bool} {rows : List Row}
    (h : attemptBody resp latest = some rows) :
    dropna resp ≠ [] ∧
      ((latest = true ∧ ∃ m, (dropna resp).getLast? = some m ∧ rows = [addMetrics m]) ∨
        (latest = false ∧ rows = (dropna resp).map addMetrics)) := by
  unfold attemptBody at h
  by_cases h1 : resp.isEmpty
  · simp [h1] at h
  · rw [if_neg h1] at h
    by_cases h2 : (dropna resp).isEmpty
    · simp [h2] at h
    · rw [if_neg h2] at h
      have hne : dropna resp ≠ [] := by
        simpa [List.isEmpty_iff] using h2
      refine ⟨hne, ?_⟩
      injection h with h
      cases latest with
      | false => exact Or.inr ⟨rfl, h.symm⟩
      | true =>
        refine Or.inl ⟨rfl, ?_⟩
        rw [if_pos rfl] at h
        rw [List.getLast?_map] at h
        cases hL : (dropna resp).getLast? with
        | none => exact absurd (List.getLast?_eq_none_iff.mp hL) hne
        | some m =>
          rw [hL] at h
          exact ⟨m, rfl, h.symm⟩

/-- A successful `try` body never returns the empty frame. -/
theorem attemptBody_ne_nil {resp : List RawRow} {latest : Bool} {rows : List Row}
    (h : attemptBody resp latest = some rows) : rows ≠ [] := by
  rcases attemptBody_eq_some h with ⟨hne, hcase | hcase⟩
  · rcases hcase.2 with ⟨m, _, hrows⟩
    simp [hrows]
  · rw [hcase.2]
    simpa using hne


/-- Unfolding equation: no attempts left. -/
theorem runLoop_zero (source : ℕ → Except String (List RawRow)) (latest : Bool)
    (delay : ℚ) (i : ℕ) : runLoop source latest delay 0 i = ([], none) := rfl

/-- Unfolding equation: the download faults, the `except` clause logs the
warning and sleeps, and the loop continues. -/
theorem runLoop_succ_error {source : ℕ → Except String (List RawRow)}
    (latest : Bool) (delay : ℚ) {i : ℕ} {e : String}
    (h : source i = Except.error e) (n : ℕ) :
    runLoop source latest delay (n + 1) i =
      (Event.call :: Event.warnAttempt i :: Event.sleep delay ::
          (runLoop source latest delay n (i + 1)).1,
        (runLoop source latest delay n (i + 1)).2) := by
  conv_lhs => rw [runLoop.eq_def]
  simp only [h]

/-- Unfolding equation: the download succeeds but the attempt fails (empty
response or zero rows after cleaning); the bare `continue` neither warns nor
sleeps. -/
theorem runLoop_succ_ok_none {source : ℕ → Except String (List RawRow)}
    (latest : Bool) (delay : ℚ) {i : ℕ} {resp : List RawRow}
    (h : source i = Except.ok resp) (hab : attemptBody resp latest = none)
    (n : ℕ) :
    runLoop source latest delay (n + 1) i =
      (Event.call :: (runLoop source latest delay n (i + 1)).1,
        (runLoop source latest delay n (i + 1)).2) := by
  conv_lhs => rw [runLoop.eq_def]
  simp only [h, hab]

/-- Unfolding equation: a successful attempt returns immediately. -/
theorem runLoop_succ_ok_some {source : ℕ → Except String (List RawRow)}
    (latest : Bool) (delay : ℚ) {i : ℕ} {resp : List RawRow} {rows : List Row}
    (h : source i = Except.ok resp) (hab : attemptBody resp latest = some rows)
    (n : ℕ) :
    runLoop source latest delay (n + 1) i = ([Event.call], some rows) := by
  conv_lhs => rw [runLoop.eq_def]
  simp only [h, hab]

/-- Traces are built from these four events only; trivial count facts. -/
theorem sleepCount_cons_call (tr : List Event) :
    sleepCount (Event.call :: tr) = sleepCount tr := by
  simp [sleepCount, List.countP_cons]

theorem sleepCount_error_block (tr : List Event) (i : ℕ) (d : ℚ) :
    sleepCount (Event.call :: Event.warnAttempt i :: Event.sleep d :: tr) =
      sleepCount tr + 1 := by
  simp [sleepCount, List.countP_cons]

theorem callCount_cons_call (tr : List Event) :
    callCount (Event.call :: tr) = callCount tr + 1 := by
  simp [callCount, List.countP_cons]

theorem callCount_error_block (tr : List Event) (i : ℕ) (d : ℚ) :
    callCount (Event.call :: Event.warnAttempt i :: Event.sleep d :: tr) =
      callCount tr + 1 := by
  simp [callCount, List.countP_cons]

/-- A loop run that produces a frame got it from a successful data-source
response on some attempt, via the `try` body. -/
theorem runLoop_eq_some {source : ℕ → Except String (List RawRow)}
    {latest : Bool} {delay : ℚ} :
    ∀ n i {rows : List Row}, (runLoop source latest delay n i).2 = some rows →
      ∃ j resp, source j = Except.ok resp ∧ attemptBody resp latest = some rows := by
  intro n
  induction n with
  | zero => intro i rows h; simp [runLoop_zero] at h
  | succ n ih =>
    intro i rows h
    cases hsi : source i with
    | error e =>
      rw [runLoop_succ_error latest delay hsi] at h
      exact ih (i + 1) h
    | ok resp =>
      cases hab : attemptBody resp latest with
      | none =>
        rw [runLoop_succ_ok_none latest delay hsi hab] at h
        exact ih (i + 1) h
      | some rows' =>
        rw [runLoop_succ_ok_some latest delay hsi hab] at h
        simp only [Option.some.injEq] at h
        exact ⟨i, resp, hsi, by rw [hab, h]⟩

/-- A sleep event appears in the loop trace only with the configured
delay. -/
theorem runLoop_sleep_eq {source : ℕ → Except String (List RawRow)}
    {latest : Bool} {delay : ℚ} :
    ∀ n i d, Event.sleep d ∈ (runLoop source latest delay n i).1 → d = delay := by
  intro n
  induction n with
  | zero => intro i d h; simp [runLoop_zero] at h
  | succ n ih =>
    intro i d h
    cases hsi : source i with
    | error e =>
      rw [runLoop_succ_error latest delay hsi] at h
      simp only [List.mem_cons] at h
      rcases h with h | h | h | h
      · exact absurd h (by simp)
      · exact absurd h (by simp)
      · injection h
      · exact ih (i + 1) d h
    | ok resp =>
      cases hab : attemptBody resp latest with
      | none =>
        rw [runLoop_succ_ok_none latest delay hsi hab] at h
        simp only [List.mem_cons] at h
        rcases h with h | h
        · exact absurd h (by simp)
        · exact ih (i + 1) d h
      | some rows' =>
        rw [runLoop_succ_ok_some latest delay hsi hab] at h
        simp at h

/-- The loop makes at most `n` data-source calls. -/
theorem runLoop_callCount_le {source : ℕ → Except String (List RawRow)}
    {latest : Bool} {delay : ℚ} :
    ∀ n i, callCount (runLoop source latest delay n i).1 ≤ n := by
  intro n
  induction n with
  | zero => intro i; simp [runLoop_zero, callCount]
  | succ n ih =>
    intro i
    cases hsi : source i with
    | error e =>
      rw [runLoop_succ_error latest delay hsi, callCount_error_block]
      exact Nat.succ_le_succ (ih (i + 1))
    | ok resp =>
      cases hab : attemptBody resp latest with
      | none =>
        rw [runLoop_succ_ok_none latest delay hsi hab, callCount_cons_call]
        exact Nat.succ_le_succ (ih (i + 1))
      | some rows' =>
        rw [runLoop_succ_ok_some latest delay hsi hab]
        simp [callCount, List.countP_cons]

/-- With at least one attempt remaining, the loop makes at least one
data-source call. -/
theorem runLoop_callCount_pos {source : ℕ → Except String (List RawRow)}
    {latest : Bool} {delay : ℚ} (n i : ℕ) :
    1 ≤ callCount (runLoop source latest delay (n + 1) i).1 := by
  cases hsi : source i with
  | error e =>
    rw [runLoop_succ_error latest delay hsi, callCount_error_block]
    omega
  | ok resp =>
    cases hab : attemptBody resp latest with
    | none =>
      rw [runLoop_succ_ok_none latest delay hsi hab, callCount_cons_call]
      omega
    | some rows' =>
      rw [runLoop_succ_ok_some latest delay hsi hab]
      simp [callCount, List.countP_cons]

/-- Sleeps happen exactly on the faulting attempts: the number of sleep
events equals the number of attempt indices, among those actually called,
at which the data source faulted.  In particular the `continue` branches
for empty or fully-dropped responses do not sleep, and a fault on the final
attempt still sleeps. -/
theorem runLoop_sleepCount {source : ℕ → Except String (List RawRow)}
    {latest : Bool} {delay : ℚ} :
    ∀ n i, sleepCount (runLoop source latest delay n i).1 =
      (List.range' i (callCount (runLoop source latest delay n i).1)).countP
        (isFaultAt source) := by
  intro n
  induction n with
  | zero => intro i; simp [runLoop_zero, sleepCount, callCount]
  | succ n ih =>
    intro i
    cases hsi : source i with
    | error e =>
      have hf : isFaultAt source i = true := by simp [isFaultAt, hsi]
      rw [runLoop_succ_error latest delay hsi, callCount_error_block,
        sleepCount_error_block, List.range'_succ, List.countP_cons, hf,
        ih (i + 1)]
      simp
    | ok resp =>
      cases hab : attemptBody resp latest with
      | none =>
        have hf : isFaultAt source i = false := by simp [isFaultAt, hsi]
        rw [runLoop_succ_ok_none latest delay hsi hab, callCount_cons_call,
          sleepCount_cons_call, List.range'_succ, List.countP_cons, hf,
          ih (i + 1)]
        simp
      | some rows' =>
        have hf : isFaultAt source i = false := by simp [isFaultAt, hsi]
        rw [runLoop_succ_ok_some latest delay hsi hab]
        have hc : callCount [Event.call] = 1 := by
          simp [callCount, List.countP_cons]
        rw [hc, List.range'_succ, List.countP_cons, hf]
        simp [sleepCount, List.countP_cons, List.range']

/-- Outcome analysis for `update_ticker_data`: a returned frame is either the
loop's successful frame with the loop's trace, or the loop was exhausted and
the empty frame is returned with the exhaustion warning appended. -/
theorem update_ticker_data_eq_ok {source : ℕ → Except String (List RawRow)}
    {latest : Bool} {retries : ℤ} {delay : ℚ} {tr : List Event} {rows : List Row}
    (h : update_ticker_data source latest retries delay = Except.ok (tr, rows)) :
    (runLoop source latest delay retries.toNat 0 = (tr, some rows)) ∨
      (rows = [] ∧ ∃ tr0, runLoop source latest delay retries.toNat 0 = (tr0, none) ∧
        tr = tr0 ++ [Event.warnExhausted]) := by
  unfold update_ticker_data at h
  cases hr : runLoop source latest delay retries.toNat 0 with
  | mk tr0 res =>
    rw [hr] at h
    cases res with
    | some rows0 =>
      left
      simp only [Except.ok.injEq, Prod.mk.injEq] at h
      rw [h.1, h.2]
    | none =>
      right
      simp only [Except.ok.injEq, Prod.mk.injEq] at h
      exact ⟨h.2.symm, tr0, rfl, h.1.symm⟩

/-- Every row of a returned frame is the derived image of a fully-numeric
raw row of some successful response. -/
theorem update_ticker_data_mem_rows {source : ℕ → Except String (List RawRow)}
    {latest : Bool} {retries : ℤ} {delay : ℚ} {tr : List Event} {rows : List Row}
    (h : update_ticker_data source latest retries delay = Except.ok (tr, rows))
    {r : Row} (hr : r ∈ rows) :
    ∃ j resp raw m, source j = Except.ok resp ∧ raw ∈ resp ∧
      cleanRow raw = some m ∧ r = addMetrics m := by
  rcases update_ticker_data_eq_ok h with hcase | ⟨hnil, _⟩
  · have h2 : (runLoop source latest delay retries.toNat 0).2 = some rows := by
      rw [hcase]
    rcases runLoop_eq_some retries.toNat 0 h2 with ⟨j, resp, hj, hab⟩
    rcases attemptBody_eq_some hab with ⟨hne, hlat | hlat⟩
    · rcases hlat.2 with ⟨m, hm, hrows⟩
      rw [hrows] at hr
      simp only [List.mem_singleton] at hr
      have hmem : m ∈ dropna resp := List.mem_of_mem_getLast? hm
      rcases List.mem_filterMap.mp hmem with ⟨raw, hraw, hclean⟩
      exact ⟨j, resp, raw, m, hj, hraw, hclean, hr⟩
    · rw [hlat.2] at hr
      rcases List.mem_map.mp hr with ⟨m, hmem, hEq⟩
      rcases List.mem_filterMap.mp hmem with ⟨raw, hraw, hclean⟩
      exact ⟨j, resp, raw, m, hj, hraw, hclean, hEq.symm⟩
  · rw [hnil] at hr
    simp at hr

/-- A sub-lemma of `cleanRow`: a successfully coerced row records exactly
the coerced values of its four price cells, and keeps its date. -/
theorem cleanRow_eq_some {raw : RawRow} {m : CleanRow}
    (h : cleanRow raw = some m) :
    toNumeric raw.open_ = some m.open_ ∧ toNumeric raw.high = some m.high ∧
    toNumeric raw.low = some m.low ∧ toNumeric raw.close = some m.close ∧
    m.date = raw.date := by
  unfold cleanRow at h
  cases ho : toNumeric raw.open_ with
  | none => rw [ho] at h; cases toNumeric raw.high <;> cases toNumeric raw.low <;>
      cases toNumeric raw.close <;> simp at h
  | some o =>
    cases hh : toNumeric raw.high with
    | none => rw [ho, hh] at h; cases toNumeric raw.low <;>
        cases toNumeric raw.close <;> simp at h
    | some hi =>
      cases hl : toNumeric raw.low with
      | none => rw [ho, hh, hl] at h; cases toNumeric raw.close <;> simp at h
      | some lo =>
        cases hc : toNumeric raw.close with
        | none => rw [ho, hh, hl, hc] at h; simp at h
        | some c =>
          rw [ho, hh, hl, hc] at h
          simp only [Option.some.injEq] at h
          rw [← h]
          exact ⟨rfl, rfl, rfl, rfl, rfl⟩

/-- With an always-empty data source, every attempt is consumed by the
empty-response `continue` and the loop ends exhausted, having called the
source once per attempt and never slept. -/
theorem runLoop_always_empty {source : ℕ → Except String (List RawRow)}
    {latest : Bool} {delay : ℚ} (h : ∀ i, source i = Except.ok []) :
    ∀ n i, runLoop source latest delay n i = (List.replicate n Event.call, none) := by
  intro n
  induction n with
  | zero => intro i; rw [runLoop_zero]; rfl
  | succ n ih =>
    intro i
    rw [runLoop_succ_ok_none latest delay (h i) rfl, ih (i + 1)]
    rfl

/-! ### Concrete data-source behaviours used as witnesses -/

/-- A data source whose every response is empty. -/
def alwaysEmptySource : ℕ → Except String (List RawRow) :=
  fun _ => Except.ok []

/-- A data source that faults (raises) on every attempt. -/
def alwaysFaultSource : ℕ → Except String (List RawRow) :=
  fun _ => Except.error "connection reset"

/-- The worked example of the spec: one bar with open 100, high 105,
low 99, close 103. -/
def specExampleSource : ℕ → Except String (List RawRow) :=
  fun _ => Except.ok
    [⟨20240102, RawCell.num 100, RawCell.num 105, RawCell.num 99, RawCell.num 103⟩]

/-- The derived row of the spec's worked example:
`upward_move = 6`, `upward_move_pct = 600/99 = 200/33`, `daily_range = 3`. -/
def specExampleRow : Row := ⟨20240102, 100, 105, 99, 103, 6, PdFloat.fin (200/33), 3⟩

/-- Evaluation of the spec's worked example through the full fetch loop. -/
theorem specExample_run : update_ticker_data specExampleSource false 3 2 =
    Except.ok ([Event.call], [specExampleRow]) := by
  norm_num [update_ticker_data, runLoop, attemptBody, dropna, cleanRow, toNumeric,
    addMetrics, pdDiv, pdReplaceInf, pdFillna, pdMul, specExampleSource, specExampleRow,
    List.filterMap]

/-! ### Claims -/

/-- Claim C5: for every input and every behaviour of the data source,
including raising transport/parsing faults on any subset of the attempts,
`update_ticker_data` never raises or propagates a fault to the caller: it
always returns a frame (`Except.ok`), and whenever that frame is the empty
"no data" outcome the exhaustion log event accompanies it. -/
theorem C5_never_propagates (source : ℕ → Except String (List RawRow))
    (latest : Bool) (retries : ℤ) (delay : ℚ) :
    ∃ tr rows, update_ticker_data source latest retries delay = Except.ok (tr, rows) ∧
      (rows = [] → Event.warnExhausted ∈ tr) := by
  cases hr : runLoop source latest delay retries.toNat 0 with
  | mk tr0 res =>
    cases res with
    | some rows0 =>
      refine ⟨tr0, rows0, ?_, ?_⟩
      · unfold update_ticker_data
        rw [hr]
      · intro hnil
        have h2 : (runLoop source latest delay retries.toNat 0).2 = some rows0 := by
          rw [hr]
        rcases runLoop_eq_some retries.toNat 0 h2 with ⟨j, resp, _, hab⟩
        exact absurd hnil (attemptBody_ne_nil hab)
    | none =>
      refine ⟨tr0 ++ [Event.warnExhausted], [], ?_, fun _ => by simp⟩
      unfold update_ticker_data
      rw [hr]

/-- Claim C4: whenever the data source returns an empty response on every
attempt, `update_ticker_data` with 3 retries calls the source exactly 3
times (one call event per attempt, and the final trace counts exactly 3
call events) and returns the tagged empty frame. -/
theorem C4_retry_exhaustion (source : ℕ → Except String (List RawRow))
    (latest : Bool) (delay : ℚ) (h : ∀ i, source i = Except.ok []) :
    update_ticker_data source latest 3 delay =
      Except.ok ([Event.call, Event.call, Event.call, Event.warnExhausted], []) ∧
    callCount [Event.call, Event.call, Event.call, Event.warnExhausted] = 3 := by
  constructor
  · unfold update_ticker_data
    rw [show ((3 : ℤ).toNat) = 3 from rfl, runLoop_always_empty h 3 0]
    rfl
  · rfl

/-- Witness for C4 at the always-empty stub source. -/
theorem C4_retry_exhaustion_witness :
    update_ticker_data alwaysEmptySource false 3 2 =
      Except.ok ([Event.call, Event.call, Event.call, Event.warnExhausted], []) ∧
    callCount [Event.call, Event.call, Event.call, Event.warnExhausted] = 3 :=
  C4_retry_exhaustion alwaysEmptySource false 2 (fun _ => rfl)

/-- Claim C10: for `retries ≤ 0` the loop body never runs: no data-source
call is made (the returned trace counts zero call events), the exhaustion
warning is still emitted, and the empty frame is returned. -/
theorem C10_nonpositive_retries (source : ℕ → Except String (List RawRow))
    (latest : Bool) (delay : ℚ) (retries : ℤ) (h : retries ≤ 0) :
    update_ticker_data source latest retries delay =
      Except.ok ([Event.warnExhausted], []) ∧
    callCount [Event.warnExhausted] = 0 := by
  constructor
  · unfold update_ticker_data
    rw [Int.toNat_of_nonpos h, runLoop_zero]
    rfl
  · rfl

/-- Witness for C10 at `retries = -1`. -/
theorem C10_nonpositive_retries_witness :
    update_ticker_data alwaysEmptySource false (-1) 2 =
      Except.ok ([Event.warnExhausted], []) ∧
    callCount [Event.warnExhausted] = 0 :=
  C10_nonpositive_retries alwaysEmptySource false 2 (-1) (by norm_num)

/-- Claim C9: every row of every frame returned by `update_ticker_data`
has `daily_Range` exactly equal to `close - open`, sign preserved (it is
the literal subtraction, not an absolute value). -/
theorem C9_daily_range (source : ℕ → Except String (List RawRow))
    (latest : Bool) (retries : ℤ) (delay : ℚ) (tr : List Event)
    (rows : List Row) (r : Row)
    (h : update_ticker_data source latest retries delay = Except.ok (tr, rows))
    (hr : r ∈ rows) : r.daily_Range = r.close - r.open_ := by
  rcases update_ticker_data_mem_rows h hr with ⟨j, resp, raw, m, _, _, _, hEq⟩
  rw [hEq]
  rfl

/-- Witness for C9 at the spec's worked example: `daily_range = 103 - 100`. -/
theorem C9_daily_range_witness :
    specExampleRow.daily_Range = specExampleRow.close - specExampleRow.open_ :=
  C9_daily_range specExampleSource false 3 2 [Event.call] [specExampleRow]
    specExampleRow specExample_run (by simp)

/-- A data source returning a (nonsensical, but unvalidated) bar whose high
is below its low. -/
def negRangeSource : ℕ → Except String (List RawRow) :=
  fun _ => Except.ok [⟨0, RawCell.num 1, RawCell.num 1, RawCell.num 2, RawCell.num 1⟩]

/-- The derived row of that bar: `upward_Move = 1 - 2 = -1 < 0`. -/
def negRangeRow : Row := ⟨0, 1, 1, 2, 1, -1, PdFloat.fin (-50), 0⟩

/-- Counterexample to C2 as stated: the code never validates `low ≤ high`,
so a response with `high = 1, low = 2` survives cleaning and yields a
returned row whose `upward_Move` is `-1`, which is negative.  The claim's
conjunct "is non-negative" is therefore false for this returned frame. -/
theorem C2_counterexample :
    update_ticker_data negRangeSource false 3 2 =
      Except.ok ([Event.call], [negRangeRow]) ∧
    negRangeRow.upward_Move < 0 := by
  constructor
  · norm_num [update_ticker_data, runLoop, attemptBody, dropna, cleanRow, toNumeric,
      addMetrics, pdDiv, pdReplaceInf, pdFillna, pdMul, negRangeSource, negRangeRow,
      List.filterMap]
  · norm_num [negRangeRow]

/-- Claim C2 (amended): every row of every frame returned by
`update_ticker_data` has `upward_Move` exactly equal to `high - low`; it is
non-negative whenever the row's prices satisfy `low ≤ high` (which the code
does not itself validate). -/
theorem C2_upward_move (source : ℕ → Except String (List RawRow))
    (latest : Bool) (retries : ℤ) (delay : ℚ) (tr : List Event)
    (rows : List Row) (r : Row)
    (h : update_ticker_data source latest retries delay = Except.ok (tr, rows))
    (hr : r ∈ rows) :
    r.upward_Move = r.high - r.low ∧ (r.low ≤ r.high → 0 ≤ r.upward_Move) := by
  rcases update_ticker_data_mem_rows h hr with ⟨j, resp, raw, m, _, _, _, hEq⟩
  subst hEq
  refine ⟨rfl, fun hle => ?_⟩
  have : (addMetrics m).upward_Move = (addMetrics m).high - (addMetrics m).low := rfl
  rw [this]
  exact sub_nonneg.mpr hle

/-- Witness for C2 (amended) at the spec's worked example:
`upward_move = 105 - 99 = 6 ≥ 0`. -/
theorem C2_upward_move_witness :
    specExampleRow.upward_Move = specExampleRow.high - specExampleRow.low ∧
    (specExampleRow.low ≤ specExampleRow.high → 0 ≤ specExampleRow.upward_Move) :=
  C2_upward_move specExampleSource false 3 2 [Event.call] [specExampleRow]
    specExampleRow specExample_run (by simp)

/-- Claim C3: in every row of every frame returned by `update_ticker_data`,
if `low = 0` then `upward_Move_pct = 0`, and `upward_Move_pct` is always
finite (never NaN, `+inf` or `-inf`): the division's non-finite values are
all replaced by zero before the `* 100` scaling. -/
theorem C3_pct_safe (source : ℕ → Except String (List RawRow))
    (latest : Bool) (retries : ℤ) (delay : ℚ) (tr : List Event)
    (rows : List Row) (r : Row)
    (h : update_ticker_data source latest retries delay = Except.ok (tr, rows))
    (hr : r ∈ rows) :
    (r.low = 0 → r.upward_Move_pct = PdFloat.fin 0) ∧
    r.upward_Move_pct.isFin = true := by
  rcases update_ticker_data_mem_rows h hr with ⟨j, resp, raw, m, _, _, _, hEq⟩
  subst hEq
  constructor
  · intro h0
    have hml : m.low = 0 := h0
    show pdMul (pdFillna (pdReplaceInf (pdDiv (m.high - m.low) m.low))) 100 =
      PdFloat.fin 0
    rw [hml]
    have := pdPct_zero_of_low_zero (m.high - 0)
    simpa using this
  · show (pdMul (pdFillna (pdReplaceInf (pdDiv (m.high - m.low) m.low))) 100).isFin = true
    rcases pdFillna_pdReplaceInf_fin (pdDiv (m.high - m.low) m.low) with ⟨q, hq⟩
    rw [hq]
    rfl

/-- A data source returning a bar whose low is exactly zero. -/
def zeroLowSource : ℕ → Except String (List RawRow) :=
  fun _ => Except.ok [⟨0, RawCell.num 1, RawCell.num 2, RawCell.num 0, RawCell.num 1⟩]

/-- The derived row of the zero-low bar: the division `2 / 0` would be
infinite, and the replace/fillna chain turns the percentage into 0. -/
def zeroLowRow : Row := ⟨0, 1, 2, 0, 1, 2, PdFloat.fin 0, 0⟩

/-- Evaluation of the zero-low bar through the full fetch loop. -/
theorem zeroLow_run : update_ticker_data zeroLowSource false 3 2 =
    Except.ok ([Event.call], [zeroLowRow]) := by
  norm_num [update_ticker_data, runLoop, attemptBody, dropna, cleanRow, toNumeric,
    addMetrics, pdDiv, pdReplaceInf, pdFillna, pdMul, zeroLowSource, zeroLowRow,
    List.filterMap]

/-- Witness for C3 at the zero-low bar: its percentage is 0 and finite. -/
theorem C3_pct_safe_witness :
    (zeroLowRow.low = 0 → zeroLowRow.upward_Move_pct = PdFloat.fin 0) ∧
    zeroLowRow.upward_Move_pct.isFin = true :=
  C3_pct_safe zeroLowSource false 3 2 [Event.call] [zeroLowRow]
    zeroLowRow zeroLow_run (by simp)

/-- Appending the exhaustion warning changes neither count. -/
theorem callCount_append_warn (tr : List Event) :
    callCount (tr ++ [Event.warnExhausted]) = callCount tr := by
  simp [callCount, List.countP_append, List.countP_cons]

theorem sleepCount_append_warn (tr : List Event) :
    sleepCount (tr ++ [Event.warnExhausted]) = sleepCount tr := by
  simp [sleepCount, List.countP_append, List.countP_cons]

/-- Counterexample to C1 as stated: with a data source that always returns
an empty response and `retries = 3`, three attempts fail in sequence, yet
the returned trace contains three call events and zero sleep events — the
empty-response and zero-rows `continue` branches skip `time.sleep`
entirely, so no sleep of `delay_between_attempts` separates consecutive
attempts, contradicting the claimed retry policy. -/
theorem C1_counterexample :
    update_ticker_data alwaysEmptySource false 3 2 =
      Except.ok ([Event.call, Event.call, Event.call, Event.warnExhausted], []) ∧
    sleepCount [Event.call, Event.call, Event.call, Event.warnExhausted] = 0 ∧
    callCount [Event.call, Event.call, Event.call, Event.warnExhausted] = 3 :=
  ⟨rfl, rfl, rfl⟩

/-- Claim C1 (amended): every failed attempt consumes one attempt (the
number of data-source calls never exceeds `retries`), and the function
sleeps for exactly `delay_between_attempts` once per attempt that raised a
transport/parsing fault — including a fault on the final attempt — while
attempts that failed with an empty response or zero rows after cleaning
proceed to the next attempt without sleeping: the sleep events in the trace
are in exact correspondence with the faulting attempt indices. -/
theorem C1_retry_sleep (source : ℕ → Except String (List RawRow))
    (latest : Bool) (retries : ℤ) (delay : ℚ) (tr : List Event) (rows : List Row)
    (h : update_ticker_data source latest retries delay = Except.ok (tr, rows)) :
    sleepCount tr = (List.range (callCount tr)).countP (isFaultAt source) ∧
    (∀ d, Event.sleep d ∈ tr → d = delay) ∧
    callCount tr ≤ retries.toNat := by
  rcases update_ticker_data_eq_ok h with hcase | ⟨hnil, tr0, hcase, htr⟩
  · have h1 : tr = (runLoop source latest delay retries.toNat 0).1 := by rw [hcase]
    refine ⟨?_, ?_, ?_⟩
    · rw [h1, List.range_eq_range']
      exact runLoop_sleepCount retries.toNat 0
    · intro d hd
      rw [h1] at hd
      exact runLoop_sleep_eq retries.toNat 0 d hd
    · rw [h1]
      exact runLoop_callCount_le retries.toNat 0
  · have h1 : tr0 = (runLoop source latest delay retries.toNat 0).1 := by rw [hcase]
    refine ⟨?_, ?_, ?_⟩
    · rw [htr, sleepCount_append_warn, callCount_append_warn, h1,
        List.range_eq_range']
      exact runLoop_sleepCount retries.toNat 0
    · intro d hd
      rw [htr] at hd
      rcases List.mem_append.mp hd with hd | hd
      · rw [h1] at hd
        exact runLoop_sleep_eq retries.toNat 0 d hd
      · simp at hd
    · rw [htr, callCount_append_warn, h1]
      exact runLoop_callCount_le retries.toNat 0

/-- The trace of two faulting attempts with `delay = 5`. -/
def faultTrace : List Event :=
  [Event.call, Event.warnAttempt 0, Event.sleep 5,
    Event.call, Event.warnAttempt 1, Event.sleep 5, Event.warnExhausted]

/-- Evaluation of a run in which every attempt faults. -/
theorem alwaysFault_run : update_ticker_data alwaysFaultSource false 2 5 =
    Except.ok (faultTrace, []) := rfl

/-- Witness for C1 (amended) at a source that faults on both of two
attempts: the trace holds exactly two sleeps, one per faulting call. -/
theorem C1_retry_sleep_witness :
    sleepCount faultTrace =
      (List.range (callCount faultTrace)).countP (isFaultAt alwaysFaultSource) :=
  (C1_retry_sleep alwaysFaultSource false 2 5 faultTrace [] alwaysFault_run).1

/-- Among rows whose dates are pairwise non-decreasing, the last row has the
maximal date. -/
theorem pairwise_date_le_getLast :
    ∀ {l : List CleanRow} {m : CleanRow},
      l.Pairwise (fun a b => a.date ≤ b.date) → l.getLast? = some m →
      ∀ x ∈ l, x.date ≤ m.date := by
  intro l
  induction l with
  | nil => intro m _ hl x hx; simp at hx
  | cons a t ih =>
    intro m hp hl x hx
    rcases List.pairwise_cons.mp hp with ⟨ha, hp'⟩
    cases t with
    | nil =>
      rw [List.getLast?_singleton] at hl
      injection hl with hl
      rcases List.mem_singleton.mp hx with rfl
      exact le_of_eq (by rw [hl])
    | cons b t' =>
      have hl' : (b :: t').getLast? = some m := by
        rw [← List.getLast?_cons_cons]
        exact hl
      rcases List.mem_cons.mp hx with rfl | hx'
      · exact ha m (List.mem_of_mem_getLast? hl')
      · exact ih hp' hl' x hx'

/-- Claim C6: in latest-only mode, whenever the returned frame is non-empty,
it has exactly one row, and — provided the data source's responses are
date-ordered ascending after cleaning, as the data-source boundary
guarantees — that row derives from the cleaned row with the maximal date,
i.e. the single most recent row of the cleaned data. -/
theorem C6_latest_only (source : ℕ → Except String (List RawRow))
    (retries : ℤ) (delay : ℚ) (tr : List Event) (rows : List Row)
    (h : update_ticker_data source true retries delay = Except.ok (tr, rows))
    (hne : rows ≠ [])
    (hsort : ∀ i resp, source i = Except.ok resp →
      (dropna resp).Pairwise (fun a b => a.date ≤ b.date)) :
    rows.length = 1 ∧
    ∃ j resp m, source j = Except.ok resp ∧ m ∈ dropna resp ∧
      rows = [addMetrics m] ∧ ∀ x ∈ dropna resp, x.date ≤ m.date := by
  rcases update_ticker_data_eq_ok h with hcase | ⟨hnil, _⟩
  · have h2 : (runLoop source true delay retries.toNat 0).2 = some rows := by
      rw [hcase]
    rcases runLoop_eq_some retries.toNat 0 h2 with ⟨j, resp, hj, hab⟩
    rcases attemptBody_eq_some hab with ⟨hdne, hlat | hlat⟩
    · rcases hlat.2 with ⟨m, hm, hrows⟩
      subst hrows
      exact ⟨rfl, j, resp, m, hj, List.mem_of_mem_getLast? hm, rfl,
        pairwise_date_le_getLast (hsort j resp hj) hm⟩
    · exact absurd hlat.1 (by simp)
  · exact absurd hnil hne

/-- A data source returning two bars with ascending dates. -/
def twoRowSource : ℕ → Except String (List RawRow) :=
  fun _ => Except.ok
    [⟨1, RawCell.num 1, RawCell.num 2, RawCell.num 1, RawCell.num 2⟩,
      ⟨2, RawCell.num 10, RawCell.num 12, RawCell.num 8, RawCell.num 11⟩]

/-- The derived image of the later (most recent) of the two bars. -/
def latestRow : Row := ⟨2, 10, 12, 8, 11, 4, PdFloat.fin 50, 1⟩

/-- Evaluation of the two-bar source in latest-only mode: only the most
recent bar is returned. -/
theorem twoRow_run : update_ticker_data twoRowSource true 3 2 =
    Except.ok ([Event.call], [latestRow]) := by
  norm_num [update_ticker_data, runLoop, attemptBody, dropna, cleanRow, toNumeric,
    addMetrics, pdDiv, pdReplaceInf, pdFillna, pdMul, twoRowSource, latestRow,
    List.filterMap, List.getLast?]

/-- Witness for C6 at the two-bar source: the returned frame has exactly
one row. -/
theorem C6_latest_only_witness : ([latestRow] : List Row).length = 1 :=
  (C6_latest_only twoRowSource 3 2 [Event.call] [latestRow] twoRow_run
    (by simp)
    (fun i resp hresp => by
      injection hresp with hresp
      subst hresp
      decide)).1

/-- A non-empty response all of whose rows are dropped by cleaning makes
the attempt fail (the zero-rows `continue` of lines 31-32). -/
theorem attemptBody_none_of {resp : List RawRow} (latest : Bool)
    (hne : resp ≠ []) (hd : dropna resp = []) : attemptBody resp latest = none := by
  unfold attemptBody
  rw [if_neg (by simpa [List.isEmpty_iff] using hne)]
  simp [hd]

/-- Claim C7: (i) every returned row derives from a raw row all four of
whose price cells coerced to numeric values (so any row with a missing
price field was dropped before the derived metrics were computed); (ii) a
raw row with any non-coercible or missing price field is dropped by the
cleaning step; (iii) an attempt whose non-empty response cleans down to
zero rows is a failed attempt eligible for retry: with at least two
attempts configured, a second data-source call follows it rather than a
success with an empty frame. -/
theorem C7_coerce_drop_retry (source : ℕ → Except String (List RawRow))
    (latest : Bool) (retries : ℤ) (delay : ℚ) (tr : List Event) (rows : List Row)
    (h : update_ticker_data source latest retries delay = Except.ok (tr, rows)) :
    (∀ r ∈ rows, ∃ j resp raw m, source j = Except.ok resp ∧ raw ∈ resp ∧
        cleanRow raw = some m ∧
        toNumeric raw.open_ = some m.open_ ∧ toNumeric raw.high = some m.high ∧
        toNumeric raw.low = some m.low ∧ toNumeric raw.close = some m.close ∧
        r = addMetrics m) ∧
    (∀ raw : RawRow, toNumeric raw.open_ = none ∨ toNumeric raw.high = none ∨
        toNumeric raw.low = none ∨ toNumeric raw.close = none →
        cleanRow raw = none) ∧
    (∀ resp, source 0 = Except.ok resp → resp ≠ [] → dropna resp = [] →
        2 ≤ retries → 2 ≤ callCount tr) := by
  refine ⟨?_, ?_, ?_⟩
  · intro r hr
    rcases update_ticker_data_mem_rows h hr with ⟨j, resp, raw, m, hj, hraw, hclean, hEq⟩
    rcases cleanRow_eq_some hclean with ⟨ho, hh, hl, hc, _⟩
    exact ⟨j, resp, raw, m, hj, hraw, hclean, ho, hh, hl, hc, hEq⟩
  · intro raw hnone
    unfold cleanRow
    cases ho : toNumeric raw.open_ <;> cases hh : toNumeric raw.high <;>
      cases hl : toNumeric raw.low <;> cases hc : toNumeric raw.close <;>
      simp_all
  · intro resp h0 hne hd h2
    obtain ⟨k, hk⟩ : ∃ k, retries.toNat = k + 1 + 1 := ⟨retries.toNat - 2, by omega⟩
    have hab : attemptBody resp latest = none := attemptBody_none_of latest hne hd
    rcases update_ticker_data_eq_ok h with hcase | ⟨hnil, tr0, hcase, htr⟩
    · have h1 : tr = (runLoop source latest delay retries.toNat 0).1 := by rw [hcase]
      rw [h1, hk, runLoop_succ_ok_none latest delay h0 hab, callCount_cons_call]
      have := @runLoop_callCount_pos source latest delay k (0 + 1)
      omega
    · have h1 : tr0 = (runLoop source latest delay retries.toNat 0).1 := by rw [hcase]
      rw [htr, callCount_append_warn, h1, hk,
        runLoop_succ_ok_none latest delay h0 hab, callCount_cons_call]
      have := @runLoop_callCount_pos source latest delay k (0 + 1)
      omega

/-- A raw row whose close is the non-coercible string "N/A". -/
def naCloseRow : RawRow := ⟨0, RawCell.num 1, RawCell.num 2, RawCell.num 1, RawCell.nonNum⟩

/-- A data source whose first response has only the "N/A"-close row (all
rows dropped by cleaning) and whose later responses are the spec's worked
example. -/
def naThenGoodSource : ℕ → Except String (List RawRow) :=
  fun i => if i = 0 then Except.ok [naCloseRow]
    else Except.ok
      [⟨20240102, RawCell.num 100, RawCell.num 105, RawCell.num 99, RawCell.num 103⟩]

/-- Evaluation: the first attempt is retried after its only row is dropped,
and the second attempt succeeds. -/
theorem naThenGood_run : update_ticker_data naThenGoodSource false 3 2 =
    Except.ok ([Event.call, Event.call], [specExampleRow]) := by
  norm_num [update_ticker_data, runLoop, attemptBody, dropna, cleanRow, toNumeric,
    addMetrics, pdDiv, pdReplaceInf, pdFillna, pdMul, naThenGoodSource, naCloseRow,
    specExampleRow, List.filterMap]

/-- Witness for C7 at the "N/A"-close source: the cleaned-to-zero first
attempt is followed by a second data-source call. -/
theorem C7_coerce_drop_retry_witness :
    2 ≤ callCount [Event.call, Event.call] :=
  (C7_coerce_drop_retry naThenGoodSource false 3 2 [Event.call, Event.call]
      [specExampleRow] naThenGood_run).2.2 [naCloseRow] rfl (by simp) rfl
    (by norm_num)

/-- `fetch_all_latest` equals the keyed concatenation of `all_data` even in
the empty case. -/
theorem fetch_all_latest_eq_flatMap
    (sources : String → ℕ → Except String (List RawRow))
    (top_tickers : List String) :
    fetch_all_latest sources top_tickers =
      (all_data sources top_tickers).flatMap fun p => p.2.map fun r => (p.1, r) := by
  unfold fetch_all_latest
  by_cases hA : (all_data sources top_tickers).isEmpty
  · rw [if_pos hA, List.isEmpty_iff.mp hA]
    rfl
  · rw [if_neg hA]

/-- Membership in the `all_data` mapping: exactly the input tickers whose
fetched frame is non-empty, paired with that frame. -/
theorem mem_all_data {sources : String → ℕ → Except String (List RawRow)}
    {top_tickers : List String} {p : String × List Row} :
    p ∈ all_data sources top_tickers ↔
      ∃ t ∈ top_tickers, fetchRows (sources t) true 3 2 ≠ [] ∧
        p = (t, fetchRows (sources t) true 3 2) := by
  unfold all_data
  rw [List.mem_filterMap]
  constructor
  · rintro ⟨t, ht, hif⟩
    by_cases hE : (fetchRows (sources t) true 3 2).isEmpty
    · rw [if_pos hE] at hif
      exact absurd hif (by simp)
    · rw [if_neg hE] at hif
      injection hif with hif
      exact ⟨t, ht, by simpa [List.isEmpty_iff] using hE, hif.symm⟩
  · rintro ⟨t, ht, hne, hpe⟩
    refine ⟨t, ht, ?_⟩
    rw [if_neg (by simpa [List.isEmpty_iff] using hne), hpe]

/-- Claim C8: `fetch_all_latest` includes a key for a ticker exactly when
that ticker occurs in the input and its fetch returned a non-empty frame —
tickers whose fetch came back empty are omitted — and the overall result is
the explicitly-empty frame exactly when every input ticker's fetch came
back empty. -/
theorem C8_fan_out (sources : String → ℕ → Except String (List RawRow))
    (top_tickers : List String) :
    (∀ t, (∃ r, (t, r) ∈ fetch_all_latest sources top_tickers) ↔
      (t ∈ top_tickers ∧ fetchRows (sources t) true 3 2 ≠ [])) ∧
    (fetch_all_latest sources top_tickers = [] ↔
      ∀ t ∈ top_tickers, fetchRows (sources t) true 3 2 = []) := by
  constructor
  · intro t
    constructor
    · rintro ⟨r, hr⟩
      rw [fetch_all_latest_eq_flatMap] at hr
      rcases List.mem_flatMap.mp hr with ⟨p, hp, hmem⟩
      rcases mem_all_data.mp hp with ⟨t', ht', hne, hpe⟩
      subst hpe
      rcases List.mem_map.mp hmem with ⟨r0, hr0, hpair⟩
      injection hpair with h1 h2
      exact ⟨h1 ▸ ht', h1 ▸ hne⟩
    · rintro ⟨ht, hne⟩
      rcases List.exists_mem_of_ne_nil _ hne with ⟨r, hr⟩
      refine ⟨r, ?_⟩
      rw [fetch_all_latest_eq_flatMap]
      exact List.mem_flatMap.mpr ⟨(t, fetchRows (sources t) true 3 2),
        mem_all_data.mpr ⟨t, ht, hne, rfl⟩, List.mem_map.mpr ⟨r, hr, rfl⟩⟩
  · constructor
    · intro hnil t ht
      by_contra hne
      rcases List.exists_mem_of_ne_nil _ hne with ⟨r, hr⟩
      have hmem : (t, r) ∈ fetch_all_latest sources top_tickers := by
        rw [fetch_all_latest_eq_flatMap]
        exact List.mem_flatMap.mpr ⟨(t, fetchRows (sources t) true 3 2),
          mem_all_data.mpr ⟨t, ht, hne, rfl⟩, List.mem_map.mpr ⟨r, hr, rfl⟩⟩
      rw [hnil] at hmem
      simp at hmem
    · intro hall
      rw [fetch_all_latest_eq_flatMap]
      have hA : all_data sources top_tickers = [] := by
        unfold all_data
        rw [List.filterMap_eq_nil_iff]
        intro t ht
        rw [if_pos (List.isEmpty_iff.mpr (hall t ht))]
      rw [hA]
      rfl
